import Mathlib

/-!
Verification of the cbt Ceph cluster module (`cluster/ceph.py`).

We shallowly embed the control logic of the module:
* `check_health` — the health-convergence polling loop (ceph.py lines 301-323);
* `check_scrub` — the scrub-idle polling loop (ceph.py lines 325-334);
* `mkpool` — pool creation with convergence polls and cache-tier recursion
  (ceph.py lines 421-482), modelled as the list of remote commands it issues;
* `set_ruleset` / `get_ruleset` — the ruleset registry (ceph.py lines 371-381);
* `init_cluster` — the `initialize` lifecycle entry with its safety guard
  (ceph.py lines 47-106), modelled as the list of side effects it performs;
* `rt_step` / `rt_iter` — the `RecoveryTestThread` fault-injection state
  machine and its driver loop (ceph.py lines 505-611).

Loops that may run forever are embedded as recursion over the finite list of
snapshots the environment will supply; exhausting the list returns `none`,
modelling divergence.
-/

namespace Cbt

/-- The hardcoded condition vocabulary of `Ceph.check_health` (ceph.py:306).
Note it contains `"stale"`. -/
def full_health_list : List String :=
  ["degraded", "peering", "recovery_wait", "stuck", "inactive", "unclean", "recovery", "stale"]

/-- `RecoveryTestThread.health_checklist` (ceph.py:518): the reduced
seven-token vocabulary, without `"stale"`. -/
def health_checklist : List String :=
  ["degraded", "peering", "recovery_wait", "stuck", "inactive", "unclean", "recovery"]

/-- The `while True` loop of `Ceph.check_health`, parameterized by the
condition list `cl` that is actually consulted.  A snapshot is the word list
of the `ceph health` output.  Following ceph.py lines 307-321: break with the
current counter when `cl` is non-empty and shares no word with the snapshot,
or when the snapshot contains `HEALTH_OK`; otherwise increment the counter,
sleep one time unit, and poll the next snapshot.  The returned number is both
the Python return value `ret` and the number of sleeps performed. -/
def check_healthLoopWith (cl : List String) : Nat → List (List String) → Option Nat
  | _, [] => none
  | ret, words :: rest =>
    if !cl.isEmpty && !(words.any fun w => cl.contains w) then some ret
    else if words.contains "HEALTH_OK" then some ret
    else check_healthLoopWith cl (ret + 1) rest

/-- `Ceph.check_health(check_list, logfile)` (ceph.py:301-323).  The body
rebinds `check_list` to the hardcoded `full_health_list` at line 306, so the
`check_list` argument is dead: whatever the caller passes, the hardcoded
vocabulary is consulted. -/
def check_health (check_list : Option (List String)) (snaps : List (List String)) : Option Nat :=
  check_healthLoopWith full_health_list 0 snaps

/-- Refinement comparison: the health query as the specification describes it,
honoring the caller-supplied reduced vocabulary when one is given.  Used only
to exhibit the divergence between the source and the spec's sentence. -/
def check_health_specified (check_list : Option (List String))
    (snaps : List (List String)) : Option Nat :=
  check_healthLoopWith (check_list.getD full_health_list) 0 snaps

/-- The `while True` loop of `Ceph.check_scrub` (ceph.py:325-334).  A snapshot
is the per-placement-group scrub-age column, one `Bool` per row: `true` means
the row reads exactly zero (`0.000000`).  The shell pipeline counts the rows
reading zero (`grep "0.000000" | wc -l`) and the loop breaks when that count
is 0 (`" 0\n" in stdout`); otherwise it sleeps one time unit and repolls.  The
returned number counts the sleeps (equivalently, the index of the terminating
snapshot). -/
def check_scrubLoop : Nat → List (List Bool) → Option Nat
  | _, [] => none
  | sleeps, rows :: rest =>
    if rows.count true = 0 then some sleeps
    else check_scrubLoop (sleeps + 1) rest

/-- `Ceph.check_scrub()` (ceph.py:325-334). -/
def check_scrub (snaps : List (List Bool)) : Option Nat :=
  check_scrubLoop 0 snaps

/-- Accumulator lemma for the scrub loop: if every snapshot before index `k`
has a row reading zero and snapshot `k` has none, the loop exits at `k`. -/
theorem check_scrubLoop_exits (snaps : List (List Bool)) :
    ∀ (k r : Nat), k < snaps.length →
    (∀ j, j < k → (snaps.getD j []).count true ≠ 0) →
    (snaps.getD k []).count true = 0 →
    check_scrubLoop r snaps = some (r + k) := by
  induction snaps with
  | nil => intro k r hk; simp at hk
  | cons s rest ih =>
    intro k r hk hbefore hat
    cases k with
    | zero =>
      simp only [List.getD_cons_zero] at hat
      simp [check_scrubLoop, hat]
    | succ k =>
      have h0 : s.count true ≠ 0 := by
        have := hbefore 0 (Nat.succ_pos k)
        simpa using this
      have hrec := ih k (r + 1) (by simpa using Nat.lt_of_succ_lt_succ hk)
        (fun j hj => by
          have := hbefore (j + 1) (Nat.succ_lt_succ hj)
          simpa using this)
        (by simpa using hat)
      simp only [check_scrubLoop, if_neg h0]
      rw [hrec]
      congr 1
      omega

/-- A pool profile, mirroring the `profile.get` reads of `Ceph.mkpool`
(ceph.py:425-437) with the same defaults.  Optional keys absent from the
Python dict are `none`. -/
structure PoolProfile where
  pg_size : Nat := 1024
  pgp_size : Nat := 1024
  erasure_profile : String := ""
  replication : Option String := none
  cache_profile : Option String := none
  crush_profile : Option String := none
  cache_mode : Option String := none
  hit_set_type : Option String := none
  hit_set_count : Option Nat := none
  hit_set_period : Option Nat := none
  target_max_objects : Option Nat := none
  target_max_bytes : Option Nat := none
  min_read_recency_for_promote : Option Nat := none
deriving DecidableEq, Repr

/-- Python truthiness of an optional string value (`None` and `''` falsy). -/
def truthyS (o : Option String) : Bool := o.getD "" != ""

/-- Python truthiness of an optional numeric value (`None` and `0` falsy). -/
def truthyN (o : Option Nat) : Bool := o.getD 0 != 0

/-- `str(profile.get('replication', None))` (ceph.py:428): `str(None)` is the
non-empty, hence truthy, string `"None"`. -/
def replStr (o : Option String) : String := o.getD "None"

/-- Python `str.isdigit`: non-empty and all characters digits (expressed over
the character list). -/
def isDigitStr (s : String) : Bool := !s.data.isEmpty && s.data.all Char.isDigit

/-- The remote commands `Ceph.mkpool` issues, abstracted from their shell
rendering. -/
inductive Cmd
  /-- `osd pool create name pg pgp ep` — the unconditional creation at
  ceph.py:440 (the erasure-profile string is appended even in this form). -/
  | createWithEP (name : String) (pg pgp : Nat) (ep : String)
  /-- `osd pool create name pg pgp erasure ep` (ceph.py:443). -/
  | createErasure (name : String) (pg pgp : Nat) (ep : String)
  /-- `osd pool create name pg pgp` (ceph.py:445). -/
  | createPlain (name : String) (pg pgp : Nat)
  /-- a call to `self.check_health()` together with its return value. -/
  | checkHealth (ret : Nat)
  /-- `osd pool set name size repl` (ceph.py:451). -/
  | setSize (name repl : String)
  /-- `osd tier add base name` (ceph.py:457). -/
  | tierAdd (base name : String)
  /-- `osd tier cache-mode name mode` (ceph.py:458). -/
  | tierCacheMode (name mode : String)
  /-- `osd tier set-overlay base name` (ceph.py:459). -/
  | tierOverlay (base name : String)
  /-- `osd pool set name param value` for the optional tuning knobs
  (ceph.py:461-475). -/
  | poolSet (name param value : String)
deriving DecidableEq, Repr

/-- Failure modes of the embedded `mkpool`. -/
inductive MkErr
  /-- a convergence poll never exits (its snapshot list is exhausted),
  modelling the non-terminating `while True` loop. -/
  | nonTermination
  /-- `get_ruleset` raising `KeyError` on an unregistered crush profile
  (ceph.py:381 via ceph.py:462). -/
  | keyError (name : String)
  /-- recursion fuel exhausted, modelling unbounded `cache_profile`
  recursion (ceph.py:482). -/
  | recursionOut
deriving DecidableEq, Repr

/-- Profile resolution (ceph.py:422-423): the pool-profile table defaults to
`{'default': {}}` only when the config has no `pool_profiles` key at all, and
any profile name absent from the table silently resolves to the empty
profile `{}`. -/
def resolve_profile (tbl : Option (List (String × PoolProfile)))
    (profile_name : String) : PoolProfile :=
  (((tbl.getD [("default", {})]).lookup profile_name)).getD {}

/-- The two creation commands issued for the pool (ceph.py:440-445): first the
unconditional one, then the branch on `replication == 'erasure'`. -/
def createCmds (name : String) (p : PoolProfile) : List Cmd :=
  [Cmd.createWithEP name p.pg_size p.pgp_size p.erasure_profile] ++
  (if replStr p.replication == "erasure" then
    [Cmd.createErasure name p.pg_size p.pgp_size p.erasure_profile]
  else
    [Cmd.createPlain name p.pg_size p.pgp_size])

/-- The cache-tier attach block (ceph.py:455-459), run only when both
`base_name` and `cache_mode` are truthy. -/
def tierCmds (name : String) (base : Option String) (p : PoolProfile) : List Cmd :=
  if truthyS base && truthyS p.cache_mode then
    [Cmd.tierAdd (base.getD "") name,
     Cmd.tierCacheMode name (p.cache_mode.getD ""),
     Cmd.tierOverlay (base.getD "") name]
  else []

/-- The crush-ruleset block (ceph.py:461-463): `get_ruleset` raises `KeyError`
when the crush profile was never registered. -/
def crushCmds (rsmap : List (String × Nat)) (name : String) (p : PoolProfile) :
    Except MkErr (List Cmd) :=
  if truthyS p.crush_profile then
    match rsmap.lookup (p.crush_profile.getD "") with
    | some rid => Except.ok [Cmd.poolSet name "crush_ruleset" (toString rid)]
    | none => Except.error (MkErr.keyError (p.crush_profile.getD ""))
  else Except.ok []

/-- The present-only tuning knobs (ceph.py:464-475). -/
def knobCmds (name : String) (p : PoolProfile) : List Cmd :=
  (if truthyS p.hit_set_type then
    [Cmd.poolSet name "hit_set_type" (p.hit_set_type.getD "")] else []) ++
  (if truthyN p.hit_set_count then
    [Cmd.poolSet name "hit_set_count" (toString (p.hit_set_count.getD 0))] else []) ++
  (if truthyN p.hit_set_period then
    [Cmd.poolSet name "hit_set_period" (toString (p.hit_set_period.getD 0))] else []) ++
  (if truthyN p.target_max_objects then
    [Cmd.poolSet name "target_max_objects" (toString (p.target_max_objects.getD 0))] else []) ++
  (if truthyN p.target_max_bytes then
    [Cmd.poolSet name "target_max_bytes" (toString (p.target_max_bytes.getD 0))] else []) ++
  (if truthyN p.min_read_recency_for_promote then
    [Cmd.poolSet name "min_read_recency_for_promote"
      (toString (p.min_read_recency_for_promote.getD 0))] else [])

/-- `Ceph.mkpool(name, profile_name, base_name)` (ceph.py:421-482), as the
list of remote commands it issues together with the next poll index.

* `fuel` bounds the `cache_profile` recursion depth (the Python recurses
  unboundedly; a cyclic profile graph diverges, which we model as
  `MkErr.recursionOut`).
* `rsmap` is `self.ruleset_map`, consulted by `get_ruleset`.
* `tbl` is `self.config.get('pool_profiles', ...)`.
* `orcl i` is the snapshot stream that the `i`-th `check_health()` call of
  this run will observe; polls are numbered in issue order. -/
def mkpool : Nat → List (String × Nat) → Option (List (String × PoolProfile)) →
    (Nat → List (List String)) → Nat → String → String → Option String →
    Except MkErr (List Cmd × Nat)
  | 0, _, _, _, _, _, _, _ => Except.error MkErr.recursionOut
  | fuel + 1, rsmap, tbl, orcl, i, name, profile_name, base =>
    let p := resolve_profile tbl profile_name
    match check_health none (orcl i) with
    | none => Except.error MkErr.nonTermination
    | some r1 =>
      let afterCreate := createCmds name p ++ [Cmd.checkHealth r1]
      let sized : Except MkErr (List Cmd × Nat) :=
        if isDigitStr (replStr p.replication) then
          match check_health none (orcl (i + 1)) with
          | none => Except.error MkErr.nonTermination
          | some r2 =>
            Except.ok (afterCreate ++
              [Cmd.setSize name (replStr p.replication), Cmd.checkHealth r2], i + 2)
        else Except.ok (afterCreate, i + 1)
      match sized with
      | Except.error e => Except.error e
      | Except.ok (t2, i2) =>
        match crushCmds rsmap name p with
        | Except.error e => Except.error e
        | Except.ok tc =>
          let t3 := t2 ++ tierCmds name base p ++ tc ++ knobCmds name p
          match check_health none (orcl i2) with
          | none => Except.error MkErr.nonTermination
          | some r3 =>
            let t4 := t3 ++ [Cmd.checkHealth r3]
            if truthyS p.cache_profile then
              match mkpool fuel rsmap tbl orcl (i2 + 1) (name ++ "-cache")
                  (p.cache_profile.getD "") (some name) with
              | Except.error e => Except.error e
              | Except.ok (tr2, i3) => Except.ok (t4 ++ tr2, i3)
            else Except.ok (t4, i2 + 1)

/-- The pool name a command creates, if it is a creation command. -/
def createdName : Cmd → Option String
  | Cmd.createWithEP n _ _ _ => some n
  | Cmd.createErasure n _ _ _ => some n
  | Cmd.createPlain n _ _ => some n
  | _ => none

/-- Whether a command creates the pool named `n`. -/
def isCreateFor (n : String) (c : Cmd) : Bool := createdName c == some n

/-- Whether a command is a convergence poll. -/
def isCheckHealthCmd : Cmd → Bool
  | Cmd.checkHealth _ => true
  | _ => false

/-- Errors of the ruleset registry: `set_ruleset` raises a generic duplicate
exception (ceph.py:374), `get_ruleset` raises `KeyError` — a `LookupError`
subclass — on an absent key (ceph.py:381). -/
inductive RegErr
  | duplicate (name : String)
  | keyErr (name : String)
deriving DecidableEq, Repr

/-- The registry state: `self.ruleset_map` (insertion-ordered association
list, mirroring the Python dict) and `self.cur_ruleset`, initialised to `{}`
and `1` in `Ceph.__init__` (ceph.py:40-41). -/
structure RegState where
  ruleset_map : List (String × Nat)
  cur_ruleset : Nat
deriving DecidableEq, Repr

/-- Registry state at `Ceph.__init__` (ceph.py:40-41). -/
def reg_init : RegState := { ruleset_map := [], cur_ruleset := 1 }

/-- `Ceph.set_ruleset(name)` (ceph.py:371-376): raise (returning the state
untouched) when the name is present; otherwise bind the name to the current
counter and post-increment the counter. -/
def set_ruleset (s : RegState) (name : String) : RegState × Option RegErr :=
  if (s.ruleset_map.lookup name).isSome then
    (s, some (RegErr.duplicate name))
  else
    ({ ruleset_map := s.ruleset_map ++ [(name, s.cur_ruleset)],
       cur_ruleset := s.cur_ruleset + 1 }, none)

/-- `Ceph.get_ruleset(name)` (ceph.py:378-381): dict indexing, raising
`KeyError` on an absent name. -/
def get_ruleset (s : RegState) (name : String) : Except RegErr Nat :=
  match s.ruleset_map.lookup name with
  | some v => Except.ok v
  | none => Except.error (RegErr.keyErr name)

/-- The ordered side effects of `Ceph.initialize` after the guard
(ceph.py:53-106). -/
inductive Effect
  | rbd_unmount
  | shutdownProcs
  | cleanupDir
  | mkdirTmp
  | mkdirAll (path : String)
  | distribute_conf
  | core_pattern
  | setup_fs
  | make_mons
  | make_osds
  | start_rgw
  | health_poll
  | scrub_poll
  | make_profiles
  | idle_wait (dur : Nat)
deriving DecidableEq, Repr

/-- `Ceph.initialize()` (ceph.py:47-106): the guard at lines 49-51 raises
`RuntimeError` before any effect when `use_existing` is set; otherwise the
lifecycle steps run in order. -/
def init_cluster (use_existing : Bool) (idle_duration : Nat) : Except String (List Effect) :=
  if use_existing then
    Except.error "initialize was called on an existing cluster! Avoiding touching anything."
  else
    Except.ok ([Effect.rbd_unmount, Effect.shutdownProcs, Effect.cleanupDir, Effect.mkdirTmp,
      Effect.mkdirAll "pid", Effect.mkdirAll "log",
      Effect.mkdirAll "monitoring", Effect.mkdirAll "core",
      Effect.distribute_conf, Effect.core_pattern, Effect.setup_fs,
      Effect.make_mons, Effect.make_osds, Effect.start_rgw,
      Effect.health_poll, Effect.scrub_poll, Effect.make_profiles] ++
      (if idle_duration > 0 then [Effect.idle_wait idle_duration] else []))

/-- The states of `RecoveryTestThread` (ceph.py:512). -/
inductive RTStateName
  | pre
  | markdown
  | osdout
  | osdin
  | post
  | done
deriving DecidableEq, Repr

/-- The mutable fields of `RecoveryTestThread` that the state handlers read
and write, plus the `haltrequest` flag the thread itself raises. -/
structure RTState where
  state : RTStateName
  outhealthtries : Nat
  inhealthtries : Nat
  maxhealthtries : Nat
  haltrequest : Bool
deriving DecidableEq, Repr

/-- The environment of one handler invocation: the value the cluster health
check would return during it, and whether `stoprequest` is set at that
moment. -/
structure RTInput where
  healthRet : Nat
  stop : Bool
deriving DecidableEq, Repr

/-- Thread state right after `RecoveryTestThread.__init__` (ceph.py:506-518):
state `pre`, both attempt counters 0, `maxhealthtries = 60`. -/
def rt_init : RTState :=
  { state := RTStateName.pre, outhealthtries := 0, inhealthtries := 0,
    maxhealthtries := 60, haltrequest := false }

/-- One invocation of the handler bound to the current state
(ceph.py:523-600), with `repeatFlag = self.config.get("repeat", False)`:

* `pre` (523-529): sleep, set the noup flag, go to `markdown`;
* `markdown` (531-539): mark the target OSDs down and out, go to `osdout`;
* `osdout` (541-562): poll health; if the attempt counter is below the cap
  and the cluster was never unhealthy, increment the counter and stay;
  otherwise unset noup, mark the OSDs up/in, go to `osdin`;
* `osdin` (564-575): the symmetric wait on its own counter, then `post`;
* `post` (577-595): if `stoprequest` is set, raise `haltrequest` and stay;
  else if `repeat`, reset both counters and go to `markdown`; else sleep and
  go to `done`;
* `done` (597-600): invoke the callback and raise `haltrequest`. -/
def rt_step (repeatFlag : Bool) (inp : RTInput) (s : RTState) : RTState :=
  match s.state with
  | RTStateName.pre => { s with state := RTStateName.markdown }
  | RTStateName.markdown => { s with state := RTStateName.osdout }
  | RTStateName.osdout =>
    if s.outhealthtries < s.maxhealthtries ∧ inp.healthRet = 0 then
      { s with outhealthtries := s.outhealthtries + 1 }
    else
      { s with state := RTStateName.osdin }
  | RTStateName.osdin =>
    if s.inhealthtries < s.maxhealthtries ∧ inp.healthRet = 0 then
      { s with inhealthtries := s.inhealthtries + 1 }
    else
      { s with state := RTStateName.post }
  | RTStateName.post =>
    if inp.stop then { s with haltrequest := true }
    else if repeatFlag then
      { s with outhealthtries := 0, inhealthtries := 0, state := RTStateName.markdown }
    else { s with state := RTStateName.done }
  | RTStateName.done => { s with haltrequest := true }

/-- The driver loop of `RecoveryTestThread.run` (ceph.py:609-610):
`while not self.haltrequest.isSet(): self.states[self.state]()`, fed by a
finite list of invocation environments. -/
def rt_iter (repeatFlag : Bool) : List RTInput → RTState → RTState
  | [], s => s
  | inp :: rest, s =>
    if s.haltrequest then s else rt_iter repeatFlag rest (rt_step repeatFlag inp s)

/-- The first two lines of `RecoveryTestThread.run` (ceph.py:607-608):
`haltrequest.clear(); stoprequest.clear()`.  Given the values the two flags
held before `run` starts, returns their values right after the clears. -/
def rt_run_entry (haltBefore stopBefore : Bool) : Bool × Bool := (false, false)

/-- A health-snapshot stream whose every poll is immediately fully healthy. -/
def healthyOrcl : Nat → List (List String) := fun _ => [["HEALTH_OK"]]

/-- The `rep3` profile of the spec's end-to-end scenario:
`{replication: 3, pg_size: 128, pgp_size: 128}`. -/
def rep3profile : PoolProfile :=
  { pg_size := 128, pgp_size := 128, replication := some "3" }

/-- If `List.lookup` misses the left part of an append, it continues right. -/
theorem lookup_append_of_none {α β : Type} [BEq α] (a : α) (l1 l2 : List (α × β))
    (h : List.lookup a l1 = none) : List.lookup a (l1 ++ l2) = List.lookup a l2 := by
  induction l1 with
  | nil => simp
  | cons kv rest ih =>
    rw [List.cons_append, List.lookup]
    rw [List.lookup] at h
    cases hk : (a == kv.1) with
    | true => rw [hk] at h; simp at h
    | false => rw [hk] at h; exact ih h

/-- A hit in the left part of an append wins. -/
theorem lookup_append_of_some {α β : Type} [BEq α] (a : α) (l1 l2 : List (α × β)) (v : β)
    (h : List.lookup a l1 = some v) : List.lookup a (l1 ++ l2) = some v := by
  induction l1 with
  | nil => simp at h
  | cons kv rest ih =>
    rw [List.cons_append, List.lookup]
    rw [List.lookup] at h
    cases hk : (a == kv.1) with
    | true =>
      simp only [hk] at h ⊢
      exact h
    | false =>
      simp only [hk] at h ⊢
      exact ih h

/-- C1 (code bug): `RecoveryTestThread.osdout` passes the reduced seven-token
`health_checklist` to `Ceph.check_health`, but `check_health` rebinds its
`check_list` parameter to the hardcoded eight-token list (ceph.py:306), so
the reduced vocabulary is ignored.  On a snapshot whose only condition token
is `stale` — a token outside the reduced vocabulary — the injector's health
query counts one unhealthy poll (returns 1), while the query as specified,
honoring the reduced vocabulary, would return 0. -/
theorem c1_stale_counts_despite_reduced_vocabulary :
    check_health (some health_checklist) [["HEALTH_WARN", "stale"], ["HEALTH_OK"]] = some 1 ∧
    check_health_specified (some health_checklist)
      [["HEALTH_WARN", "stale"], ["HEALTH_OK"]] = some 0 ∧
    (["HEALTH_WARN", "stale"].any fun w => health_checklist.contains w) = false := by
  refine ⟨rfl, rfl, rfl⟩

/-- C2 (counterexample): `check_scrub` terminates on the very first snapshot
`[false]`, in which the single scrub-age row is non-zero, even though the
first snapshot in which every row reads exactly zero is the second one —
so the loop neither waits for an all-zero snapshot nor refuses to stop on a
snapshot with a non-zero row.  (`true` encodes a row reading exactly
`0.000000`.) -/
theorem c2_counterexample :
    check_scrub [[false], [true]] = some 0 ∧ some 0 ≠ some 1 ∧
    ([false].all fun r => r) = false ∧ ([true].all fun r => r) = true := by
  refine ⟨rfl, by decide, rfl, rfl⟩

/-- C2 (amended): `check_scrub` terminates on the first snapshot in which
no per-placement-group scrub-age row reads exactly zero (the piped count of
`0.000000` rows is 0), does not terminate on any earlier snapshot in which
some row reads zero, and sleeps one time unit between non-terminating polls
(the returned value counts those sleeps). -/
theorem c2_scrub_stops_when_no_zero_rows (snaps : List (List Bool)) (k : Nat)
    (hk : k < snaps.length)
    (hbefore : ∀ j, j < k → (snaps.getD j []).count true ≠ 0)
    (hat : (snaps.getD k []).count true = 0) :
    check_scrub snaps = some k := by
  have h := check_scrubLoop_exits snaps k 0 hk hbefore hat
  simpa [check_scrub] using h

/-- Witness for C2's amended theorem at a concrete input. -/
theorem c2_scrub_stops_witness :
    check_scrub [[true, false], [false, false]] = some 1 := by
  exact c2_scrub_stops_when_no_zero_rows [[true, false], [false, false]] 1
    (by decide)
    (fun j hj => by
      have hj0 : j = 0 := by omega
      subst hj0
      decide)
    (by decide)

/-- C8: registering a name twice fails with a duplicate error on the second
call while leaving the registry unchanged; looking up a never-registered name
fails with `KeyError` (a `LookupError`); and the ids assigned to two
successive distinct registrations are strictly increasing — the first gets
the pre-call counter and the second the counter plus one. -/
theorem c8_registry (s : RegState) (a b : String)
    (ha : s.ruleset_map.lookup a = none)
    (hb : (set_ruleset s a).1.ruleset_map.lookup b = none) :
    (∀ (t : RegState) (n : String), (set_ruleset t n).2 = none →
      set_ruleset (set_ruleset t n).1 n = ((set_ruleset t n).1, some (RegErr.duplicate n))) ∧
    (∀ (t : RegState) (n : String), t.ruleset_map.lookup n = none →
      get_ruleset t n = Except.error (RegErr.keyErr n)) ∧
    get_ruleset (set_ruleset (set_ruleset s a).1 b).1 a = Except.ok s.cur_ruleset ∧
    get_ruleset (set_ruleset (set_ruleset s a).1 b).1 b = Except.ok (s.cur_ruleset + 1) ∧
    s.cur_ruleset < s.cur_ruleset + 1 := by
  have hsa : set_ruleset s a =
      ({ ruleset_map := s.ruleset_map ++ [(a, s.cur_ruleset)],
         cur_ruleset := s.cur_ruleset + 1 }, none) := by
    simp [set_ruleset, ha]
  refine ⟨?_, ?_, ?_, ?_, Nat.lt_succ_self _⟩
  · intro t n h
    by_cases hmem : (t.ruleset_map.lookup n).isSome
    · exfalso
      simp [set_ruleset, hmem] at h
    · have hnone : t.ruleset_map.lookup n = none := by
        cases hl : t.ruleset_map.lookup n with
        | none => rfl
        | some v => exact absurd (by simp [hl]) hmem
      have hfst : (set_ruleset t n).1 =
          { ruleset_map := t.ruleset_map ++ [(n, t.cur_ruleset)],
            cur_ruleset := t.cur_ruleset + 1 } := by
        simp [set_ruleset, hnone]
      rw [hfst]
      have hhit : List.lookup n (t.ruleset_map ++ [(n, t.cur_ruleset)]) =
          some t.cur_ruleset := by
        rw [lookup_append_of_none n _ _ hnone]
        simp [List.lookup]
      simp [set_ruleset, hhit]
  · intro t n h
    simp [get_ruleset, h]
  · rw [hsa]
    have hb' : List.lookup b (s.ruleset_map ++ [(a, s.cur_ruleset)]) = none := by
      rw [hsa] at hb
      exact hb
    have hsb : set_ruleset
        { ruleset_map := s.ruleset_map ++ [(a, s.cur_ruleset)],
          cur_ruleset := s.cur_ruleset + 1 } b =
        ({ ruleset_map := (s.ruleset_map ++ [(a, s.cur_ruleset)]) ++ [(b, s.cur_ruleset + 1)],
           cur_ruleset := s.cur_ruleset + 2 }, none) := by
      simp [set_ruleset, hb']
    rw [hsb]
    have hlook : List.lookup a ((s.ruleset_map ++ [(a, s.cur_ruleset)]) ++
        [(b, s.cur_ruleset + 1)]) = some s.cur_ruleset := by
      apply lookup_append_of_some
      rw [lookup_append_of_none a _ _ ha]
      simp [List.lookup]
    simp only [get_ruleset]
    rw [hlook]
  · rw [hsa]
    have hb' : List.lookup b (s.ruleset_map ++ [(a, s.cur_ruleset)]) = none := by
      rw [hsa] at hb
      exact hb
    have hsb : set_ruleset
        { ruleset_map := s.ruleset_map ++ [(a, s.cur_ruleset)],
          cur_ruleset := s.cur_ruleset + 1 } b =
        ({ ruleset_map := (s.ruleset_map ++ [(a, s.cur_ruleset)]) ++ [(b, s.cur_ruleset + 1)],
           cur_ruleset := s.cur_ruleset + 2 }, none) := by
      simp [set_ruleset, hb']
    rw [hsb]
    have hlook : List.lookup b ((s.ruleset_map ++ [(a, s.cur_ruleset)]) ++
        [(b, s.cur_ruleset + 1)]) = some (s.cur_ruleset + 1) := by
      rw [lookup_append_of_none b _ _ hb']
      simp [List.lookup]
    simp only [get_ruleset]
    rw [hlook]

/-- Witness for C8 starting from the freshly initialised registry. -/
theorem c8_registry_witness :
    get_ruleset (set_ruleset (set_ruleset reg_init "alpha").1 "beta").1 "alpha" =
      Except.ok 1 ∧
    get_ruleset (set_ruleset (set_ruleset reg_init "alpha").1 "beta").1 "beta" =
      Except.ok 2 := by
  have h := c8_registry reg_init "alpha" "beta" (by rfl) (by rfl)
  exact ⟨h.2.2.1, h.2.2.2.1⟩

/-- C9: when the cluster is flagged as pre-existing (`use_existing`),
`initialize` raises `RuntimeError` immediately and performs none of its side
effects: the result is the bare error, never an effect list. -/
theorem c9_initialize_guard (use_existing : Bool) (idle : Nat)
    (h : use_existing = true) :
    init_cluster use_existing idle =
      Except.error
        "initialize was called on an existing cluster! Avoiding touching anything." ∧
    ∀ es : List Effect, init_cluster use_existing idle ≠ Except.ok es := by
  subst h
  refine ⟨rfl, ?_⟩
  intro es hes
  simp [init_cluster] at hes

/-- Witness for C9 on a protected cluster. -/
theorem c9_initialize_guard_witness :
    init_cluster true 0 =
      Except.error
        "initialize was called on an existing cluster! Avoiding touching anything." := by
  exact (c9_initialize_guard true 0 rfl).1

/-- The thread state at the start of the osdout scenario: counter 0, the
attempt cap set to `N`. -/
def osdoutStart (N : Nat) : RTState :=
  { state := RTStateName.osdout, outhealthtries := 0, inhealthtries := 0,
    maxhealthtries := N, haltrequest := false }

/-- Splitting the driver loop over an input-list append. -/
theorem rt_iter_append (rf : Bool) (l1 l2 : List RTInput) (s : RTState) :
    rt_iter rf (l1 ++ l2) s = rt_iter rf l2 (rt_iter rf l1 s) := by
  induction l1 generalizing s with
  | nil => simp [rt_iter]
  | cons i rest ih =>
    rw [List.cons_append, rt_iter, rt_iter]
    by_cases hh : s.haltrequest
    · rw [if_pos hh, if_pos hh]
      cases l2 with
      | nil => simp [rt_iter]
      | cons j l2' => rw [rt_iter, if_pos hh]
    · rw [if_neg hh, if_neg hh]
      exact ih _

/-- A step from a non-halted state raises the halt flag only from `post`
with the stop signal set, or from `done`. -/
theorem rt_step_halt_origin (rf : Bool) (inp : RTInput) (s : RTState)
    (h0 : s.haltrequest = false) (h1 : (rt_step rf inp s).haltrequest = true) :
    (s.state = RTStateName.post ∧ inp.stop = true) ∨ s.state = RTStateName.done := by
  cases hs : s.state
  all_goals rw [rt_step, hs] at h1
  case pre => simp [h0] at h1
  case markdown => simp [h0] at h1
  case osdout =>
    by_cases hc : s.outhealthtries < s.maxhealthtries ∧ inp.healthRet = 0
    · rw [if_pos hc] at h1; simp [h0] at h1
    · rw [if_neg hc] at h1; simp [h0] at h1
  case osdin =>
    by_cases hc : s.inhealthtries < s.maxhealthtries ∧ inp.healthRet = 0
    · rw [if_pos hc] at h1; simp [h0] at h1
    · rw [if_neg hc] at h1; simp [h0] at h1
  case post =>
    by_cases hstop : inp.stop
    · exact Or.inl ⟨rfl, hstop⟩
    · rw [if_neg hstop] at h1
      by_cases hr : rf
      · rw [if_pos hr] at h1; simp [h0] at h1
      · rw [if_neg hr] at h1; simp [h0] at h1
  case done => exact Or.inr rfl

/-- A step never clears the halt flag and, when halt is not raised by it, the
flag stays false; vacuous bookkeeping for the loop lemmas. -/
theorem rt_step_halt_false (rf : Bool) (inp : RTInput) (s : RTState)
    (h0 : s.haltrequest = false)
    (h1 : ¬(rt_step rf inp s).haltrequest = true) :
    (rt_step rf inp s).haltrequest = false := by
  cases hh : (rt_step rf inp s).haltrequest with
  | false => rfl
  | true => exact absurd hh h1

/-- If a finite run of the driver loop ends with the halt flag raised, some
invocation `k` of the run started non-halted in `post` with the stop signal
set at that moment, or in `done`. -/
theorem rt_iter_halt_origin (rf : Bool) :
    ∀ (inps : List RTInput) (s0 : RTState), s0.haltrequest = false →
    (rt_iter rf inps s0).haltrequest = true →
    ∃ k, ∃ hc : k < inps.length,
      (rt_iter rf (inps.take k) s0).haltrequest = false ∧
      (((rt_iter rf (inps.take k) s0).state = RTStateName.post ∧
        (inps.get ⟨k, hc⟩).stop = true) ∨
       (rt_iter rf (inps.take k) s0).state = RTStateName.done) := by
  intro inps
  induction inps with
  | nil =>
    intro s0 h0 h1
    rw [rt_iter] at h1
    rw [h0] at h1
    exact absurd h1 (by simp)
  | cons i rest ih =>
    intro s0 h0 h1
    rw [rt_iter, if_neg (by rw [h0]; exact Bool.false_ne_true)] at h1
    by_cases hh : (rt_step rf i s0).haltrequest = true
    · refine ⟨0, Nat.succ_pos _, ?_, ?_⟩
      · simpa [rt_iter] using h0
      · have := rt_step_halt_origin rf i s0 h0 hh
        simpa [rt_iter] using this
    · have hh' := rt_step_halt_false rf i s0 h0 hh
      obtain ⟨k, hc, hkh, hk⟩ := ih (rt_step rf i s0) hh' h1
      refine ⟨k + 1, Nat.succ_lt_succ hc, ?_, ?_⟩
      · rw [List.take_succ_cons, rt_iter,
          if_neg (by rw [h0]; exact Bool.false_ne_true)]
        exact hkh
      · rw [List.take_succ_cons, rt_iter,
          if_neg (by rw [h0]; exact Bool.false_ne_true)]
        simpa using hk

/-- While the osdout attempt counter is below the cap and every health query
returns 0, each invocation increments the counter and stays in `osdout`. -/
theorem rt_osdout_wait (rf stop : Bool) (N : Nat) :
    ∀ (k c : Nat), c + k ≤ N →
    rt_iter rf (List.replicate k ⟨0, stop⟩)
      { osdoutStart N with outhealthtries := c } =
    { osdoutStart N with outhealthtries := c + k } := by
  intro k
  induction k with
  | zero => intro c h; simp [rt_iter]
  | succ k ih =>
    intro c h
    rw [List.replicate_succ, rt_iter, if_neg (by simp [osdoutStart])]
    have hc : c < N := by omega
    have hstep : rt_step rf ⟨0, stop⟩ { osdoutStart N with outhealthtries := c } =
        { osdoutStart N with outhealthtries := c + 1 } := by
      simp [rt_step, osdoutStart, hc]
    rw [hstep]
    have hrec := ih (c + 1) (by omega)
    rw [hrec]
    have harith : c + 1 + k = c + (k + 1) := by omega
    rw [harith]

/-- C6: in the `osdout` state with the attempt counter at 0 and the cap at
`N`, when every health query reports the cluster as never unhealthy
(`check_health` returns 0), each of the first `N` handler invocations
increments the counter and leaves the state `osdout` — so the transition
never happens while the counter is below `N` — and the invocation made once
the counter has reached `N` moves the machine to `osdin`. -/
theorem c6_osdout_attempt_cap (N : Nat) (rf stop : Bool) :
    (∀ k, k ≤ N →
      rt_iter rf (List.replicate k ⟨0, stop⟩) (osdoutStart N) =
        { osdoutStart N with outhealthtries := k }) ∧
    rt_iter rf (List.replicate (N + 1) ⟨0, stop⟩) (osdoutStart N) =
      { osdoutStart N with outhealthtries := N, state := RTStateName.osdin } := by
  constructor
  · intro k hk
    have := rt_osdout_wait rf stop N k 0 (by omega)
    simpa using this
  · rw [show N + 1 = N.succ from rfl, List.replicate_succ', rt_iter_append]
    have h1 : rt_iter rf (List.replicate N ⟨0, stop⟩) (osdoutStart N) =
        { osdoutStart N with outhealthtries := N } := by
      have := rt_osdout_wait rf stop N N 0 (by omega)
      simpa using this
    rw [h1, rt_iter, if_neg (by simp [osdoutStart])]
    have hstep : rt_step rf ⟨0, stop⟩ { osdoutStart N with outhealthtries := N } =
        { osdoutStart N with outhealthtries := N, state := RTStateName.osdin } := by
      simp [rt_step, osdoutStart, Nat.lt_irrefl]
    rw [hstep, rt_iter]

/-- Witness for C6 with the cap set to 3, as in the spec's test sketch. -/
theorem c6_osdout_attempt_cap_witness :
    rt_iter false (List.replicate 3 ⟨0, false⟩) (osdoutStart 3) =
      { osdoutStart 3 with outhealthtries := 3 } ∧
    rt_iter false (List.replicate 4 ⟨0, false⟩) (osdoutStart 3) =
      { osdoutStart 3 with outhealthtries := 3, state := RTStateName.osdin } := by
  have h := c6_osdout_attempt_cap 3 false false
  exact ⟨h.1 3 (by omega), h.2⟩

/-- The four states of the repeat cycle. -/
def inCycle (st : RTStateName) : Prop :=
  st = RTStateName.markdown ∨ st = RTStateName.osdout ∨
  st = RTStateName.osdin ∨ st = RTStateName.post

/-- With `repeat` configured and the stop signal unset, a step from a cycle
state stays in the cycle and leaves the halt flag untouched. -/
theorem rt_step_cycle (i : RTInput) (s : RTState)
    (hstop : i.stop = false) (hcyc : inCycle s.state) :
    inCycle (rt_step true i s).state ∧
    (rt_step true i s).haltrequest = s.haltrequest := by
  rcases hcyc with hs | hs | hs | hs
  · constructor
    · simp only [rt_step, hs]
      exact Or.inr (Or.inl rfl)
    · simp only [rt_step, hs]
  · by_cases hc : s.outhealthtries < s.maxhealthtries ∧ i.healthRet = 0
    · constructor
      · simp only [rt_step, hs, if_pos hc]
        exact Or.inr (Or.inl rfl)
      · simp only [rt_step, hs, if_pos hc]
    · constructor
      · simp only [rt_step, hs, if_neg hc]
        exact Or.inr (Or.inr (Or.inl rfl))
      · simp only [rt_step, hs, if_neg hc]
  · by_cases hc : s.inhealthtries < s.maxhealthtries ∧ i.healthRet = 0
    · constructor
      · simp only [rt_step, hs, if_pos hc]
        exact Or.inr (Or.inr (Or.inl rfl))
      · simp only [rt_step, hs, if_pos hc]
    · constructor
      · simp only [rt_step, hs, if_neg hc]
        exact Or.inr (Or.inr (Or.inr rfl))
      · simp only [rt_step, hs, if_neg hc]
  · constructor
    · simp [rt_step, hs, hstop, inCycle]
    · simp [rt_step, hs, hstop]

/-- With `repeat` configured, no step reaches `done`. -/
theorem rt_step_no_done (i : RTInput) (s : RTState)
    (h : s.state ≠ RTStateName.done) :
    (rt_step true i s).state ≠ RTStateName.done := by
  cases hs : s.state
  case pre => simp [rt_step, hs]
  case markdown => simp [rt_step, hs]
  case osdout =>
    by_cases hc : s.outhealthtries < s.maxhealthtries ∧ i.healthRet = 0
    · simp [rt_step, hs, if_pos hc]
    · simp [rt_step, hs, if_neg hc]
  case osdin =>
    by_cases hc : s.inhealthtries < s.maxhealthtries ∧ i.healthRet = 0
    · simp [rt_step, hs, if_pos hc]
    · simp [rt_step, hs, if_neg hc]
  case post =>
    by_cases hstop : i.stop = true
    · simp [rt_step, hs, hstop]
    · simp [rt_step, hs, hstop]
  case done => exact absurd hs h

/-- With `repeat` configured, a whole run never reaches `done`. -/
theorem rt_iter_no_done :
    ∀ (inps : List RTInput) (s0 : RTState), s0.state ≠ RTStateName.done →
    (rt_iter true inps s0).state ≠ RTStateName.done := by
  intro inps
  induction inps with
  | nil => intro s0 h; simpa [rt_iter] using h
  | cons i rest ih =>
    intro s0 h
    rw [rt_iter]
    by_cases hh : s0.haltrequest
    · rw [if_pos hh]; exact h
    · rw [if_neg hh]
      exact ih _ (rt_step_no_done i s0 h)

/-- With `repeat` configured and every stop input unset, a run starting in
the cycle stays in the cycle without halting. -/
theorem rt_iter_cycle :
    ∀ (inps : List RTInput) (s0 : RTState),
    (∀ i ∈ inps, i.stop = false) → inCycle s0.state → s0.haltrequest = false →
    inCycle (rt_iter true inps s0).state ∧
    (rt_iter true inps s0).haltrequest = false := by
  intro inps
  induction inps with
  | nil => intro s0 _ hcyc hh; exact ⟨by simpa [rt_iter] using hcyc, by simpa [rt_iter] using hh⟩
  | cons i rest ih =>
    intro s0 hstops hcyc hh
    rw [rt_iter, if_neg (by rw [hh]; exact Bool.false_ne_true)]
    have hstep := rt_step_cycle i s0 (hstops i (by simp)) hcyc
    exact ih _ (fun j hj => hstops j (by simp [hj])) hstep.1 (by rw [hstep.2]; exact hh)

/-- C7: with `repeat` configured true, the machine cycles
markdown → osdout → osdin → post → markdown while the stop signal is unset:
(1) whenever a run that starts non-halted and not in `done` ends with the
halt flag raised, some invocation of that run was made in `post` with the
stop signal set at that moment — so setting stop in any other state never
raises halt before the cycle next reaches `post`; (2) while every stop input
is unset, a run from a cycle state stays in the four cycle states and never
raises halt; (3) each single step with stop unset follows the cycle order:
markdown → osdout, osdout → osdout/osdin, osdin → osdin/post, and
post → markdown with the halt flag untouched. -/
theorem c7_repeat_cycle :
    (∀ (inps : List RTInput) (s0 : RTState),
      s0.haltrequest = false → s0.state ≠ RTStateName.done →
      (rt_iter true inps s0).haltrequest = true →
      ∃ k, ∃ hc : k < inps.length,
        (rt_iter true (inps.take k) s0).state = RTStateName.post ∧
        (inps.get ⟨k, hc⟩).stop = true) ∧
    (∀ (inps : List RTInput) (s0 : RTState),
      (∀ i ∈ inps, i.stop = false) → inCycle s0.state → s0.haltrequest = false →
      inCycle (rt_iter true inps s0).state ∧
      (rt_iter true inps s0).haltrequest = false) ∧
    (∀ (i : RTInput) (s : RTState), i.stop = false →
      (s.state = RTStateName.markdown →
        (rt_step true i s).state = RTStateName.osdout) ∧
      (s.state = RTStateName.osdout →
        (rt_step true i s).state = RTStateName.osdout ∨
        (rt_step true i s).state = RTStateName.osdin) ∧
      (s.state = RTStateName.osdin →
        (rt_step true i s).state = RTStateName.osdin ∨
        (rt_step true i s).state = RTStateName.post) ∧
      (s.state = RTStateName.post →
        (rt_step true i s).state = RTStateName.markdown ∧
        (rt_step true i s).haltrequest = s.haltrequest)) := by
  refine ⟨?_, rt_iter_cycle, ?_⟩
  · intro inps s0 h0 hnd h1
    obtain ⟨k, hc, hkh, hk⟩ := rt_iter_halt_origin true inps s0 h0 h1
    refine ⟨k, hc, ?_⟩
    rcases hk with ⟨hp, hstop⟩ | hdone
    · exact ⟨hp, hstop⟩
    · exact absurd hdone (rt_iter_no_done (inps.take k) s0 hnd)
  · intro i s hstop
    refine ⟨?_, ?_, ?_, ?_⟩
    · intro hs
      simp only [rt_step, hs]
    · intro hs
      by_cases hc : s.outhealthtries < s.maxhealthtries ∧ i.healthRet = 0
      · refine Or.inl ?_
        simp only [rt_step, hs, if_pos hc]
      · refine Or.inr ?_
        simp only [rt_step, hs, if_neg hc]
    · intro hs
      by_cases hc : s.inhealthtries < s.maxhealthtries ∧ i.healthRet = 0
      · refine Or.inl ?_
        simp only [rt_step, hs, if_pos hc]
      · refine Or.inr ?_
        simp only [rt_step, hs, if_neg hc]
    · intro hs
      constructor
      · simp [rt_step, hs, hstop]
      · simp [rt_step, hs, hstop]

/-- Witness for C7: a one-invocation run from `post` with stop set halts and
the origin invocation is found at index 0; a run from `markdown` with stop
unset stays in the cycle without halting; a single step from `markdown`
moves to `osdout`. -/
theorem c7_repeat_cycle_witness :
    (∃ k, ∃ hc : k < 1,
      (rt_iter true (List.take k [⟨0, true⟩]) { rt_init with state := RTStateName.post }).state
        = RTStateName.post ∧
      (([⟨0, true⟩] : List RTInput).get ⟨k, hc⟩).stop = true) ∧
    inCycle (rt_iter true [⟨0, false⟩, ⟨1, false⟩]
      { rt_init with state := RTStateName.markdown }).state ∧
    (rt_step true ⟨0, false⟩ { rt_init with state := RTStateName.markdown }).state
      = RTStateName.osdout := by
  have h := c7_repeat_cycle
  refine ⟨?_, ?_, ?_⟩
  · exact h.1 [⟨0, true⟩] { rt_init with state := RTStateName.post } rfl
      (by simp [rt_init]) (by decide)
  · exact (h.2.1 [⟨0, false⟩, ⟨1, false⟩] { rt_init with state := RTStateName.markdown }
      (by decide) (Or.inl rfl) rfl).1
  · exact (h.2.2 ⟨0, false⟩ { rt_init with state := RTStateName.markdown } rfl).1 rfl

/-- C10: `RecoveryTestThread.run` begins by clearing both signal flags
unconditionally, so a stop request set by the owner before the loop starts is
discarded (both flags read false right after entry, whatever they were);
the thread starts in the `pre` state set by the constructor; and a finite run
of the loop ends with halt raised only if some invocation of it was made in
`post` with the stop signal set at that moment, or in `done`. -/
theorem c10_run_discards_early_stop :
    (∀ haltBefore stopBefore : Bool,
      rt_run_entry haltBefore stopBefore = (false, false)) ∧
    rt_init.state = RTStateName.pre ∧
    (∀ (rf : Bool) (inps : List RTInput) (s0 : RTState),
      s0.haltrequest = false →
      (rt_iter rf inps s0).haltrequest = true →
      ∃ k, ∃ hc : k < inps.length,
        ((rt_iter rf (inps.take k) s0).state = RTStateName.post ∧
          (inps.get ⟨k, hc⟩).stop = true) ∨
        (rt_iter rf (inps.take k) s0).state = RTStateName.done) := by
  refine ⟨fun _ _ => rfl, rfl, ?_⟩
  intro rf inps s0 h0 h1
  obtain ⟨k, hc, _, hk⟩ := rt_iter_halt_origin rf inps s0 h0 h1
  exact ⟨k, hc, hk⟩

/-- Witness for C10: entry clears a pre-set stop flag, and a concrete
non-repeat run that halts has its halt origin in `post`/`done`. -/
theorem c10_run_discards_early_stop_witness :
    rt_run_entry true true = (false, false) ∧
    (∃ k, ∃ hc : k < 1,
      ((rt_iter false (List.take k [⟨0, true⟩]) { rt_init with state := RTStateName.post }).state
          = RTStateName.post ∧
        (([⟨0, true⟩] : List RTInput).get ⟨k, hc⟩).stop = true) ∨
      (rt_iter false (List.take k [⟨0, true⟩])
        { rt_init with state := RTStateName.post }).state = RTStateName.done) := by
  have h := c10_run_discards_early_stop
  exact ⟨h.1 true true,
    h.2.2 false [⟨0, true⟩] { rt_init with state := RTStateName.post } rfl (by decide)⟩

/-- Membership in a guarded command list implies membership in its body. -/
theorem mem_ite_nil {c : Cmd} {P : Prop} [Decidable P] {l : List Cmd}
    (hc : c ∈ (if P then l else [])) : c ∈ l := by
  split at hc
  · exact hc
  · simp at hc

/-- Every command in `createCmds n p` is a creation command for the pool `n`
and not a convergence poll. -/
theorem createCmds_shape (n : String) (p : PoolProfile) (c : Cmd)
    (hc : c ∈ createCmds n p) :
    createdName c = some n ∧ isCheckHealthCmd c = false := by
  unfold createCmds at hc
  rcases List.mem_append.mp hc with h1 | h1
  · rcases List.mem_singleton.mp h1 with rfl
    exact ⟨rfl, rfl⟩
  · split at h1
    · rcases List.mem_singleton.mp h1 with rfl
      exact ⟨rfl, rfl⟩
    · rcases List.mem_singleton.mp h1 with rfl
      exact ⟨rfl, rfl⟩

/-- The tier block issues no creation command and no poll. -/
theorem tierCmds_shape (n : String) (b : Option String) (p : PoolProfile) (c : Cmd)
    (hc : c ∈ tierCmds n b p) :
    createdName c = none ∧ isCheckHealthCmd c = false := by
  unfold tierCmds at hc
  have hc' := mem_ite_nil hc
  simp only [List.mem_cons, List.not_mem_nil, or_false] at hc'
  rcases hc' with rfl | rfl | rfl
  · exact ⟨rfl, rfl⟩
  · exact ⟨rfl, rfl⟩
  · exact ⟨rfl, rfl⟩

/-- The crush block issues no creation command and no poll. -/
theorem crushCmds_shape (rsmap : List (String × Nat)) (n : String) (p : PoolProfile)
    (tc : List Cmd) (h : crushCmds rsmap n p = Except.ok tc) (c : Cmd)
    (hc : c ∈ tc) : createdName c = none ∧ isCheckHealthCmd c = false := by
  unfold crushCmds at h
  split at h
  · split at h
    · rcases h with ⟨rfl⟩
      rcases List.mem_singleton.mp hc with rfl
      exact ⟨rfl, rfl⟩
    · exact absurd h (by simp)
  · rcases h with ⟨rfl⟩
    simp at hc

/-- The tuning-knob block issues no creation command and no poll. -/
theorem knobCmds_shape (n : String) (p : PoolProfile) (c : Cmd)
    (hc : c ∈ knobCmds n p) :
    createdName c = none ∧ isCheckHealthCmd c = false := by
  unfold knobCmds at hc
  rcases List.mem_append.mp hc with h1 | h1
  rotate_left
  · rcases List.mem_singleton.mp (mem_ite_nil h1) with rfl
    exact ⟨rfl, rfl⟩
  rcases List.mem_append.mp h1 with h1 | h1
  rotate_left
  · rcases List.mem_singleton.mp (mem_ite_nil h1) with rfl
    exact ⟨rfl, rfl⟩
  rcases List.mem_append.mp h1 with h1 | h1
  rotate_left
  · rcases List.mem_singleton.mp (mem_ite_nil h1) with rfl
    exact ⟨rfl, rfl⟩
  rcases List.mem_append.mp h1 with h1 | h1
  rotate_left
  · rcases List.mem_singleton.mp (mem_ite_nil h1) with rfl
    exact ⟨rfl, rfl⟩
  rcases List.mem_append.mp h1 with h1 | h1
  · rcases List.mem_singleton.mp (mem_ite_nil h1) with rfl
    exact ⟨rfl, rfl⟩
  · rcases List.mem_singleton.mp (mem_ite_nil h1) with rfl
    exact ⟨rfl, rfl⟩

/-- A command that creates no pool cannot create a pool. -/
theorem created_none_elim {c : Cmd} {m : String} (h1 : createdName c = none)
    (h2 : createdName c = some m) : False := by
  rw [h1] at h2
  exact Option.noConfusion h2

/-- Names produced by the cache recursion are strictly longer than the
parent pool name. -/
theorem cache_name_longer (name m : String)
    (h : m = name ++ "-cache" ∨ (name ++ "-cache").length < m.length) :
    name.length < m.length := by
  have h6 : ("-cache" : String).length = 6 := rfl
  rcases h with rfl | h
  · rw [String.length_append, h6]
    omega
  · have : (name ++ "-cache").length = name.length + 6 := by
      rw [String.length_append, h6]
    omega

/-- Every creation command in an `mkpool` trace either creates the requested
pool or a strictly longer name (a `-cache` descendant). -/
theorem mkpool_created_names :
    ∀ (fuel : Nat) (rsmap : List (String × Nat))
      (tbl : Option (List (String × PoolProfile)))
      (orcl : Nat → List (List String)) (i : Nat) (name pname : String)
      (base : Option String) (tr : List Cmd) (i' : Nat),
    mkpool fuel rsmap tbl orcl i name pname base = Except.ok (tr, i') →
    ∀ c ∈ tr, ∀ m, createdName c = some m →
    m = name ∨ name.length < m.length := by
  intro fuel
  induction fuel with
  | zero =>
    intro rsmap tbl orcl i name pname base tr i' h
    simp [mkpool] at h
  | succ fuel ih =>
    intro rsmap tbl orcl i name pname base tr i' h
    simp only [mkpool] at h
    split at h
    · simp at h
    case _ r1 _ =>
    split at h
    · simp at h
    case _ t2 i2 heq2 =>
    split at h
    · simp at h
    case _ tc heqc =>
    split at h
    · simp at h
    case _ r3 _ =>
    have ht2 : ∀ c ∈ t2, ∀ m, createdName c = some m → m = name := by
      split at heq2
      · split at heq2
        · simp at heq2
        · rw [Except.ok.injEq, Prod.mk.injEq] at heq2
          obtain ⟨hl, _⟩ := heq2
          subst hl
          intro c hc m hm
          simp only [List.mem_append, List.mem_singleton, List.mem_cons,
            List.not_mem_nil, or_false] at hc
          rcases hc with (hc | rfl) | (rfl | rfl)
          · have h1 := (createCmds_shape _ _ _ hc).1
            rw [h1] at hm
            exact (Option.some.inj hm).symm
          · simp [createdName] at hm
          · simp [createdName] at hm
          · simp [createdName] at hm
      · rw [Except.ok.injEq, Prod.mk.injEq] at heq2
        obtain ⟨hl, _⟩ := heq2
        subst hl
        intro c hc m hm
        simp only [List.mem_append, List.mem_singleton] at hc
        rcases hc with hc | rfl
        · have h1 := (createCmds_shape _ _ _ hc).1
          rw [h1] at hm
          exact (Option.some.inj hm).symm
        · simp [createdName] at hm
    split at h
    · split at h
      · simp at h
      case _ tr2 i3 heqr =>
      rw [Except.ok.injEq, Prod.mk.injEq] at h
      obtain ⟨hl, _⟩ := h
      subst hl
      intro c hc m hm
      simp only [List.mem_append, List.mem_singleton] at hc
      rcases hc with ((((hc | hc) | hc) | hc) | rfl) | hc
      · exact Or.inl (ht2 c hc m hm)
      · exact absurd hm (fun hm => created_none_elim (tierCmds_shape _ _ _ _ hc).1 hm)
      · exact absurd hm (fun hm => created_none_elim (crushCmds_shape _ _ _ _ heqc _ hc).1 hm)
      · exact absurd hm (fun hm => created_none_elim (knobCmds_shape _ _ _ hc).1 hm)
      · simp [createdName] at hm
      · have hrec := ih _ _ _ _ _ _ _ _ _ heqr c hc m hm
        exact Or.inr (cache_name_longer name m hrec)
    · rw [Except.ok.injEq, Prod.mk.injEq] at h
      obtain ⟨hl, _⟩ := h
      subst hl
      intro c hc m hm
      simp only [List.mem_append, List.mem_singleton] at hc
      rcases hc with (((hc | hc) | hc) | hc) | rfl
      · exact Or.inl (ht2 c hc m hm)
      · exact absurd hm (fun hm => created_none_elim (tierCmds_shape _ _ _ _ hc).1 hm)
      · exact absurd hm (fun hm => created_none_elim (crushCmds_shape _ _ _ _ heqc _ hc).1 hm)
      · exact absurd hm (fun hm => created_none_elim (knobCmds_shape _ _ _ hc).1 hm)
      · simp [createdName] at hm

/-- Lists whose commands create no pool contribute nothing to a
creation-command filter. -/
theorem filter_isCreateFor_nil_of_none (n : String) (l : List Cmd)
    (h : ∀ c ∈ l, createdName c = none) :
    l.filter (fun c => isCreateFor n c) = [] := by
  rw [List.filter_eq_nil_iff]
  intro c hc
  have h1 := h c hc
  simp [isCreateFor, h1]

/-- `createCmds` survives its own creation filter whole. -/
theorem filter_isCreateFor_createCmds (n : String) (p : PoolProfile) :
    (createCmds n p).filter (fun c => isCreateFor n c) = createCmds n p := by
  rw [List.filter_eq_self]
  intro c hc
  have h1 := (createCmds_shape n p c hc).1
  simp [isCreateFor, h1]

/-- C4 (amended): for every profile, `mkpool` issues exactly two creation
commands for the requested pool name — first the unconditional creation
passing pg/pgp size and the erasure-profile string (ceph.py:440), then the
branch-chosen one: erasure-mode when the profile's replication mode is the
string "erasure", else plain replicated (ceph.py:442-445) — and every other
creation command in the run is for a strictly longer `-cache` descendant
name, never for this pool name. -/
theorem c4_two_creation_commands (fuel : Nat) (rsmap : List (String × Nat))
    (tbl : Option (List (String × PoolProfile))) (orcl : Nat → List (List String))
    (i : Nat) (name pname : String) (base : Option String) (tr : List Cmd) (i' : Nat)
    (h : mkpool (fuel + 1) rsmap tbl orcl i name pname base = Except.ok (tr, i')) :
    tr.filter (fun c => isCreateFor name c) =
      createCmds name (resolve_profile tbl pname) ∧
    (createCmds name (resolve_profile tbl pname)).length = 2 := by
  constructor
  case right =>
    unfold createCmds
    split <;> rfl
  simp only [mkpool] at h
  split at h
  · simp at h
  case _ r1 _ =>
  split at h
  · simp at h
  case _ t2 i2 heq2 =>
  split at h
  · simp at h
  case _ tc heqc =>
  split at h
  · simp at h
  case _ r3 _ =>
  have ht2 : t2.filter (fun c => isCreateFor name c) =
      createCmds name (resolve_profile tbl pname) := by
    split at heq2
    · split at heq2
      · simp at heq2
      · rw [Except.ok.injEq, Prod.mk.injEq] at heq2
        obtain ⟨hl, _⟩ := heq2
        subst hl
        rw [List.filter_append, List.filter_append,
          filter_isCreateFor_createCmds]
        rw [show List.filter (fun c => isCreateFor name c) [Cmd.checkHealth r1] = []
          from rfl]
        rw [show ∀ (r2 : Nat), List.filter (fun c => isCreateFor name c)
            [Cmd.setSize name (replStr (resolve_profile tbl pname).replication),
             Cmd.checkHealth r2] = [] from fun r2 => rfl]
        simp
    · rw [Except.ok.injEq, Prod.mk.injEq] at heq2
      obtain ⟨hl, _⟩ := heq2
      subst hl
      rw [List.filter_append, filter_isCreateFor_createCmds]
      rw [show List.filter (fun c => isCreateFor name c) [Cmd.checkHealth r1] = []
        from rfl]
      simp
  have htier : (tierCmds name base (resolve_profile tbl pname)).filter
      (fun c => isCreateFor name c) = [] :=
    filter_isCreateFor_nil_of_none _ _
      (fun c hc => (tierCmds_shape _ _ _ c hc).1)
  have hcrush : tc.filter (fun c => isCreateFor name c) = [] :=
    filter_isCreateFor_nil_of_none _ _
      (fun c hc => (crushCmds_shape _ _ _ _ heqc c hc).1)
  have hknob : (knobCmds name (resolve_profile tbl pname)).filter
      (fun c => isCreateFor name c) = [] :=
    filter_isCreateFor_nil_of_none _ _
      (fun c hc => (knobCmds_shape _ _ c hc).1)
  split at h
  · split at h
    · simp at h
    case _ tr2 i3 heqr =>
    rw [Except.ok.injEq, Prod.mk.injEq] at h
    obtain ⟨hl, _⟩ := h
    subst hl
    have hrec : tr2.filter (fun c => isCreateFor name c) = [] := by
      rw [List.filter_eq_nil_iff]
      intro c hc
      cases hcn : createdName c with
      | none => simp [isCreateFor, hcn]
      | some m =>
        have hlong := cache_name_longer name m
          (mkpool_created_names _ _ _ _ _ _ _ _ _ _ heqr c hc m hcn)
        have hne : m ≠ name := by
          intro hcontra
          rw [hcontra] at hlong
          omega
        simp [isCreateFor, hcn, hne]
    simp only [List.filter_append, ht2, htier, hcrush, hknob, hrec,
      List.append_nil]
    rw [show List.filter (fun c => isCreateFor name c) [Cmd.checkHealth r3] = []
      from rfl]
    simp
  · rw [Except.ok.injEq, Prod.mk.injEq] at h
    obtain ⟨hl, _⟩ := h
    subst hl
    simp only [List.filter_append, ht2, htier, hcrush, hknob, List.append_nil]
    rw [show List.filter (fun c => isCreateFor name c) [Cmd.checkHealth r3] = []
      from rfl]
    simp

/-- Witness for C4 on the empty default profile. -/
theorem c4_two_creation_commands_witness :
    ([Cmd.createWithEP "data" 1024 1024 "", Cmd.createPlain "data" 1024 1024,
      Cmd.checkHealth 0, Cmd.checkHealth 0] : List Cmd).filter
        (fun c => isCreateFor "data" c) =
      createCmds "data" (resolve_profile none "default") := by
  exact (c4_two_creation_commands 0 [] none healthyOrcl 0 "data" "default" none
    [Cmd.createWithEP "data" 1024 1024 "", Cmd.createPlain "data" 1024 1024,
      Cmd.checkHealth 0, Cmd.checkHealth 0] 2 rfl).1

/-- C4 (counterexample): even for the empty default profile, `mkpool` issues
two creation commands for the requested pool name, not one: the unconditional
creation of ceph.py:440 precedes the branch-chosen creation of
ceph.py:442-445. -/
theorem c4_counterexample :
    (mkpool 1 [] none healthyOrcl 0 "data" "default" none).map
      (fun r => r.1.countP fun c => isCreateFor "data" c) = Except.ok 2 ∧
    (2 : Nat) ≠ 1 := by
  exact ⟨rfl, by decide⟩

/-- Lists without poll commands contribute nothing to a poll filter. -/
theorem filter_isCheck_nil_of_shape (l : List Cmd)
    (h : ∀ c ∈ l, isCheckHealthCmd c = false) :
    l.filter (fun c => isCheckHealthCmd c) = [] := by
  rw [List.filter_eq_nil_iff]
  intro c hc
  simp [h c hc]

/-- The creation commands contain no poll. -/
theorem filter_isCheck_createCmds (n : String) (p : PoolProfile) :
    (createCmds n p).filter (fun c => isCheckHealthCmd c) = [] :=
  filter_isCheck_nil_of_shape _ (fun c hc => (createCmds_shape n p c hc).2)

/-- The tuning-knob commands contain no poll. -/
theorem filter_isCheck_knobCmds (n : String) (p : PoolProfile) :
    (knobCmds n p).filter (fun c => isCheckHealthCmd c) = [] :=
  filter_isCheck_nil_of_shape _ (fun c hc => (knobCmds_shape n p c hc).2)

/-- C5 (counterexample): `mkpool` called with the profile name "nope", which
is neither present in the configured pool-profile table nor the reserved name
"default", does not fail: it silently resolves to the empty profile and
completes pool creation with the default pg/pgp sizes. -/
theorem c5_counterexample :
    mkpool 1 [] (some [("rep3", rep3profile)]) healthyOrcl 0 "data" "nope" none =
      Except.ok ([Cmd.createWithEP "data" 1024 1024 "",
        Cmd.createPlain "data" 1024 1024,
        Cmd.checkHealth 0, Cmd.checkHealth 0], 2) ∧
    ("nope" ∉ ([("rep3", rep3profile)].map Prod.fst : List String)) ∧
    "nope" ≠ "default" := by
  refine ⟨rfl, by decide, by decide⟩

/-- C5 (amended): a profile name absent from the configured pool-profile
table resolves silently to the empty profile `{}` — for every unknown name,
not only for "default" — and `mkpool` proceeds without error, creating the
pool with the default 1024/1024 pg/pgp sizes; the `{'default': {}}` fallback
table applies only when the configuration has no `pool_profiles` key at
all. -/
theorem c5_unknown_profile_silently_defaults (tbl : List (String × PoolProfile))
    (name pname : String) (h : tbl.lookup pname = none) :
    resolve_profile (some tbl) pname = {} ∧
    mkpool 1 [] (some tbl) healthyOrcl 0 name pname none =
      Except.ok ([Cmd.createWithEP name 1024 1024 "",
        Cmd.createPlain name 1024 1024,
        Cmd.checkHealth 0, Cmd.checkHealth 0], 2) := by
  have hres : resolve_profile (some tbl) pname = {} := by
    simp [resolve_profile, h]
  refine ⟨hres, ?_⟩
  simp only [mkpool, hres]
  rfl

/-- Witness for C5 at a concrete table and unknown name. -/
theorem c5_unknown_profile_witness :
    mkpool 1 [] (some [("rep3", rep3profile)]) healthyOrcl 0 "pool" "other" none =
      Except.ok ([Cmd.createWithEP "pool" 1024 1024 "",
        Cmd.createPlain "pool" 1024 1024,
        Cmd.checkHealth 0, Cmd.checkHealth 0], 2) := by
  exact (c5_unknown_profile_silently_defaults [("rep3", rep3profile)]
    "pool" "other" rfl).2

/-- C3 (counterexample): for the `rep3` profile (replication "3", pg 128,
pgp 128, no cache profile) with every snapshot immediately fully healthy,
`mkpool` issues three convergence polls, not two. -/
theorem c3_counterexample :
    (mkpool 1 [] (some [("rep3", rep3profile)]) healthyOrcl 0 "data" "rep3" none).map
      (fun r => r.1.countP fun c => isCheckHealthCmd c) = Except.ok 3 ∧
    (3 : Nat) ≠ 2 := by
  refine ⟨rfl, by decide⟩

/-- C3 (amended): for every profile with replication the literal "3",
pg/pgp size 128, no cache profile and no crush profile, `mkpool` issues
exactly three convergence polls — post-create, post-replica-set, and the
final health check — and when every snapshot stream is immediately fully
healthy each poll returns 0 iterations. -/
theorem c3_three_convergence_polls (p : PoolProfile) (rsmap : List (String × Nat))
    (orcl : Nat → List (List String)) (pname : String)
    (hrep : p.replication = some "3") (hpg : p.pg_size = 128)
    (hpgp : p.pgp_size = 128) (hcache : p.cache_profile = none)
    (hcrush : p.crush_profile = none)
    (horcl : ∀ j, check_health none (orcl j) = some 0) :
    (mkpool 1 rsmap (some [(pname, p)]) orcl 0 "data" pname none).map
      (fun r => (r.1.filter fun c => isCheckHealthCmd c, r.2)) =
    Except.ok ([Cmd.checkHealth 0, Cmd.checkHealth 0, Cmd.checkHealth 0], 3) := by
  have hres : resolve_profile (some [(pname, p)]) pname = p := by
    simp [resolve_profile, List.lookup]
  have hdig : isDigitStr (replStr p.replication) = true := by
    rw [hrep]
    rfl
  have htier : tierCmds "data" none p = [] := by
    unfold tierCmds
    rfl
  have hcrushc : crushCmds rsmap "data" p = Except.ok [] := by
    unfold crushCmds
    rw [hcrush]
    rfl
  simp only [mkpool, hres, horcl 0, horcl 1, horcl 2, hdig, hcache, hcrushc,
    htier, if_true]
  have e1 : ∀ r : Nat, isCheckHealthCmd (Cmd.checkHealth r) = true := fun _ => rfl
  have e2 : ∀ a b : String, isCheckHealthCmd (Cmd.setSize a b) = false := fun _ _ => rfl
  simp [Except.map, truthyS, List.filter_append, filter_isCheck_createCmds,
    filter_isCheck_knobCmds, hrep, e1, e2]

/-- Witness for C3 at the concrete `rep3` profile and the all-healthy
snapshot stream. -/
theorem c3_three_convergence_polls_witness :
    (mkpool 1 [] (some [("rep3", rep3profile)]) healthyOrcl 0 "data" "rep3" none).map
      (fun r => (r.1.filter fun c => isCheckHealthCmd c, r.2)) =
    Except.ok ([Cmd.checkHealth 0, Cmd.checkHealth 0, Cmd.checkHealth 0], 3) := by
  exact c3_three_convergence_polls rep3profile [] healthyOrcl "rep3"
    rfl rfl rfl rfl rfl (fun j => rfl)

end Cbt
